import Mathlib

/-!
Verification of the JumpCloud MCP automation repository
(`bot/jc-cli.py`, `bot/appv1.py`, `bot/app.py`, `jc.py`).

The Python functions are shallowly embedded over a model `PyVal` of the
JSON-like dynamic values the pipeline manipulates.  Python dictionaries are
association lists of `PyVal` pairs (well-formed dictionaries have unique
keys); Python exceptions are the `Except String` monad, with an error at
every source operation that can raise (`.get` on a non-dict, `+` between a
string and a non-string, iteration over a non-sequence).  `json.loads` is an
external library function and is therefore a parameter `parse` of the
extraction pipeline, returning `Except.error` where `json.loads` raises.
-/

set_option autoImplicit false
set_option maxRecDepth 2000

/-- Model of Python/JSON dynamic values as handled by the bot code.
(Float payload values are outside the model; none of the verified
properties involve them.) -/
inductive PyVal where
  | none
  | bool (b : Bool)
  | int (n : Int)
  | str (s : String)
  | list (xs : List PyVal)
  | dict (kvs : List (PyVal × PyVal))

mutual
/-- Structural equality on `PyVal` (Python `==` on the modelled values). -/
def pyBeq : PyVal → PyVal → Bool
  | PyVal.none, PyVal.none => true
  | PyVal.bool a, PyVal.bool b => a == b
  | PyVal.int a, PyVal.int b => a == b
  | PyVal.str a, PyVal.str b => a == b
  | PyVal.list xs, PyVal.list ys => pyBeqList xs ys
  | PyVal.dict xs, PyVal.dict ys => pyBeqKVs xs ys
  | _, _ => false

def pyBeqList : List PyVal → List PyVal → Bool
  | [], [] => true
  | x :: xs, y :: ys => pyBeq x y && pyBeqList xs ys
  | _, _ => false

def pyBeqKVs : List (PyVal × PyVal) → List (PyVal × PyVal) → Bool
  | [], [] => true
  | (k₁, v₁) :: xs, (k₂, v₂) :: ys => pyBeq k₁ k₂ && pyBeq v₁ v₂ && pyBeqKVs xs ys
  | _, _ => false
end

theorem pyBeq_iff (a b : PyVal) : pyBeq a b = true ↔ a = b := by
  refine pyBeq.induct (fun x y => pyBeq x y = true ↔ x = y)
    (fun xs ys => pyBeqKVs xs ys = true ↔ xs = ys)
    (fun xs ys => pyBeqList xs ys = true ↔ xs = ys)
    ?_ ?_ ?_ ?_ ?_ ?_ ?_ ?_ ?_ ?_ ?_ ?_ ?_ a b
  all_goals intros
  all_goals try simp_all [pyBeq, pyBeqList, pyBeqKVs]
  case refine_7 =>
    next t x h₁ h₂ h₃ h₄ h₅ h₆ =>
      rintro rfl
      cases t with
      | none => simp_all
      | bool b => cases b <;> simp_all
      | int n => simp_all
      | str s => simp_all
      | list xs => simp_all
      | dict kvs => simp_all
  case refine_10 =>
    next t x h₁ h₂ =>
      rintro rfl
      cases t with
      | nil => simp_all
      | cons hd tl => exact h₂ hd tl hd tl rfl rfl
  case refine_13 =>
    next t x h₁ h₂ =>
      rintro rfl
      cases t with
      | nil => simp_all
      | cons hd tl => exact h₂ hd.1 hd.2 tl hd.1 hd.2 tl rfl rfl

instance : DecidableEq PyVal := fun a b =>
  decidable_of_iff (pyBeq a b = true) (pyBeq_iff a b)

/-- Python truthiness (`if x:`) for the modelled values. -/
def truthy : PyVal → Bool
  | PyVal.none => false
  | PyVal.bool b => b
  | PyVal.int n => n != 0
  | PyVal.str s => s ≠ ""
  | PyVal.list xs => !xs.isEmpty
  | PyVal.dict kvs => !kvs.isEmpty

mutual
/-- Python `repr` of a modelled value (scalars exactly; containers
recursively, as in CPython). -/
def pyRepr : PyVal → String
  | PyVal.none => "None"
  | PyVal.bool true => "True"
  | PyVal.bool false => "False"
  | PyVal.int n => toString n
  | PyVal.str s => "\x27" ++ s ++ "\x27"
  | PyVal.list xs => "[" ++ pyReprList xs ++ "]"
  | PyVal.dict kvs => "\x7b" ++ pyReprKVs kvs ++ "\x7d"

def pyReprList : List PyVal → String
  | [] => ""
  | [x] => pyRepr x
  | x :: y :: rest => pyRepr x ++ ", " ++ pyReprList (y :: rest)

def pyReprKVs : List (PyVal × PyVal) → String
  | [] => ""
  | [(k, v)] => pyRepr k ++ ": " ++ pyRepr v
  | (k, v) :: q :: rest => pyRepr k ++ ": " ++ pyRepr v ++ ", " ++ pyReprKVs (q :: rest)
end

/-- Python `str` (what an f-string interpolation produces). -/
def pyStr : PyVal → String
  | PyVal.str s => s
  | v => pyRepr v

/-- Lookup in a dictionary represented as an association list, with a
default: `d.get(key, default)` on a value already known to be a dict.
Well-formed dictionaries have unique keys, so first match suffices. -/
def dGetD : List (PyVal × PyVal) → PyVal → PyVal → PyVal
  | [], _, dflt => dflt
  | p :: rest, k, dflt => if p.1 = k then p.2 else dGetD rest k dflt

/-- Python dictionary update `d[k] = v`: replace the value at an existing
key in place, otherwise append the new entry (insertion order). -/
def fmSet : List (PyVal × PyVal) → PyVal → PyVal → List (PyVal × PyVal)
  | [], k, v => [(k, v)]
  | p :: rest, k, v => if p.1 = k then (k, v) :: rest else p :: fmSet rest k v

/-- The `.get(key, default)` method call on an arbitrary value: succeeds on
a dict, raises `AttributeError` on anything else (as in Python). -/
def pyGet (v : PyVal) (key : String) (dflt : PyVal) : Except String PyVal :=
  match v with
  | PyVal.dict kvs => Except.ok (dGetD kvs (PyVal.str key) dflt)
  | _ => Except.error "AttributeError: no attribute get"

/-- Python `+`, restricted to the combinations the formatter can reach:
string/string concatenation and int/int addition succeed, every mixed
combination raises `TypeError` (as in Python). -/
def pyAdd : PyVal → PyVal → Except String PyVal
  | PyVal.str a, PyVal.str b => Except.ok (PyVal.str (a ++ b))
  | PyVal.int a, PyVal.int b => Except.ok (PyVal.int (a + b))
  | PyVal.bool a, PyVal.bool b => Except.ok (PyVal.int ((if a then 1 else 0) + if b then 1 else 0))
  | PyVal.list a, PyVal.list b => Except.ok (PyVal.list (a ++ b))
  | _, _ => Except.error "TypeError: unsupported operand types for +"

/-- The whitespace characters Python's `str.strip()` removes. -/
def isPySpace (c : Char) : Bool :=
  c = ' ' || c = '\t' || c = '\n' || c = '\r' || c = '\x0b' || c = '\x0c'

/-- `str.strip()` on the underlying character list: drop whitespace from
both ends. -/
def stripChars (cs : List Char) : List Char :=
  ((cs.dropWhile isPySpace).reverse.dropWhile isPySpace).reverse

/-- The `.strip()` method call: defined on strings (whitespace removed
from both ends), `AttributeError` on anything else. -/
def pyStrip : PyVal → Except String String
  | PyVal.str s => Except.ok (String.mk (stripChars s.data))
  | _ => Except.error "AttributeError: no attribute strip"

/-!  ## Result extractor
`_extract_inner_json_from_search_api_result` (bot/jc-cli.py lines 50-86,
identical in bot/appv1.py lines 78-118). -/

/-- One element of the envelope's `content` sequence.  `getattr(item,
"text", None)` collapses an absent attribute and an explicit `None`, so
`text` is simply a `PyVal` (with `PyVal.none` for both). -/
structure ContentItem where
  text : PyVal
  deriving DecidableEq

/-- The raw `CallToolResult` envelope.  `structuredContent` is read with
`getattr(result, "structuredContent", None)`, so absence and `None`
coincide; `content` is `None` or a validated sequence of items, and
`isError` is the envelope's error flag (never inspected by the bots). -/
structure RawResult where
  structuredContent : PyVal
  content : Option (List ContentItem)
  isError : Bool
  deriving DecidableEq

/-- The loop body of the extractor for a single content item: if the item
carries a string `text` that `parse` (the stand-in for `json.loads`) turns
into a dict, yield that dict; a missing/non-string text, a parse failure
(caught by the `try`/`except`) or a non-dict parse all yield nothing. -/
def itemObj (parse : String → Except String PyVal) (item : ContentItem) :
    Option (List (PyVal × PyVal)) :=
  match item.text with
  | PyVal.str s =>
    match parse s with
    | Except.ok (PyVal.dict d) => some d
    | _ => none
  | _ => none

/-- The `for item in content` scan: first item whose text parses to a dict
wins; items that yield nothing are skipped and scanning continues. -/
def scanContent (parse : String → Except String PyVal) :
    List ContentItem → Option (List (PyVal × PyVal))
  | [] => none
  | item :: rest =>
    match itemObj parse item with
    | some d => some d
    | none => scanContent parse rest

/-- Strategy 2 of the extractor (`content[].text`): `if not content:
return None` followed by the scan. -/
def contentFallback (parse : String → Except String PyVal) :
    Option (List ContentItem) → Except String (Option (List (PyVal × PyVal)))
  | Option.none => Except.ok none
  | Option.some items =>
    if items.isEmpty then Except.ok none else Except.ok (scanContent parse items)

/-- `_extract_inner_json_from_search_api_result`: return `structuredContent`
when it is a dict, otherwise fall back to the `content[].text` scan.  The
result lives in the exception monad so that any Python operation that could
raise would show up as `Except.error`; none of the extractor's operations
can. -/
def extract (parse : String → Except String PyVal) (r : RawResult) :
    Except String (Option (List (PyVal × PyVal))) :=
  match r.structuredContent with
  | PyVal.dict d => Except.ok (some d)
  | _ => contentFallback parse r.content

/-!  ## Result formatter
`_format_search_api_results` (bot/jc-cli.py lines 89-155); the Slack
variant of bot/appv1.py lines 121-216 differs only in its literal strings
and is embedded separately below. -/

/-- The field-map reduction loop (jc-cli lines 121-126): each entry of the
row's `fields` list must be a dict (`f.get` raises otherwise); entries with
a falsy `field` name are skipped, the rest update the map, last write
winning. -/
def buildFieldMapAux (acc : List (PyVal × PyVal)) :
    List PyVal → Except String (List (PyVal × PyVal))
  | [] => Except.ok acc
  | f :: rest =>
    match pyGet f "field" PyVal.none with
    | Except.error e => Except.error e
    | Except.ok fname =>
      match pyGet f "value" PyVal.none with
      | Except.error e => Except.error e
      | Except.ok fval =>
        buildFieldMapAux (if truthy fname then fmSet acc fname fval else acc) rest

/-- Reduce a row's `fields` list to the `field_map` dictionary. -/
def buildFieldMap (fs : List PyVal) : Except String (List (PyVal × PyVal)) :=
  buildFieldMapAux [] fs

/-- Reference fold step used to state what the field map holds for a key:
scanning the fields list left to right, the last dict entry whose `field`
name equals the key supplies the value. -/
def lastFieldStep (k : PyVal) (a : PyVal) (f : PyVal) : PyVal :=
  match f with
  | PyVal.dict d =>
    if dGetD d (PyVal.str "field") PyVal.none = k
    then dGetD d (PyVal.str "value") PyVal.none
    else a
  | _ => a

/-- The identity-line renderer (jc-cli lines 135-146): display name from
`user.first_name`/`user.last_name` joined by a space and stripped (string
concatenation raises `TypeError` on non-string values), then the parts
present among username, display name, email and id joined by a fixed
separator. -/
def identityLine (fm : List (PyVal × PyVal)) : Except String PyVal :=
  let fname := dGetD fm (PyVal.str "user.first_name") (PyVal.str "")
  let lname := dGetD fm (PyVal.str "user.last_name") (PyVal.str "")
  let email := dGetD fm (PyVal.str "user.email") PyVal.none
  let username := dGetD fm (PyVal.str "user.username") PyVal.none
  let uid := dGetD fm (PyVal.str "user.id") PyVal.none
  match pyAdd fname (PyVal.str " ") with
  | Except.error e => Except.error e
  | Except.ok t₁ =>
    match pyAdd t₁ lname with
    | Except.error e => Except.error e
    | Except.ok t₂ =>
      match pyStrip t₂ with
      | Except.error e => Except.error e
      | Except.ok pretty =>
        let parts : List String :=
          (if truthy username then [pyStr username] else [])
            ++ (if pretty ≠ "" then [pretty] else [])
            ++ (if truthy email then ["<" ++ pyStr email ++ ">"] else [])
            ++ (if truthy uid then ["id=" ++ pyStr uid] else [])
        Except.ok (PyVal.str (" - " ++ String.intercalate " | " parts))

/-- The generic row renderer (jc-cli lines 148-150): every field of the row
as `key=value`, in insertion order. -/
def genericLine (fm : List (PyVal × PyVal)) : PyVal :=
  PyVal.str (" - " ++ String.intercalate "; "
    (fm.map fun p => pyStr p.1 ++ "=" ++ pyStr p.2))

/-- Render one result row (jc-cli lines 119-150): reduce `fields` to the
field map (a truthy non-list `fields` value makes the iteration raise),
then choose the identity renderer when any of `user.username`,
`user.email`, `user.id` is truthy, the generic renderer otherwise. -/
def renderRow (row : PyVal) : Except String PyVal :=
  match pyGet row "fields" (PyVal.list []) with
  | Except.error e => Except.error e
  | Except.ok fl₀ =>
    match (if truthy fl₀ then fl₀ else PyVal.list []) with
    | PyVal.list fs =>
      match buildFieldMap fs with
      | Except.error e => Except.error e
      | Except.ok fm =>
        let email := dGetD fm (PyVal.str "user.email") PyVal.none
        let username := dGetD fm (PyVal.str "user.username") PyVal.none
        let uid := dGetD fm (PyVal.str "user.id") PyVal.none
        if truthy username || truthy email || truthy uid then identityLine fm
        else Except.ok (genericLine fm)
    | _ => Except.error "TypeError: fields is not a list of dicts"

/-- The `for row in results[:MAX_ROWS]` loop, one line per row, aborting at
the first row whose rendering raises. -/
def renderRows : List PyVal → Except String (List PyVal)
  | [] => Except.ok []
  | row :: rest =>
    match renderRow row with
    | Except.error e => Except.error e
    | Except.ok line =>
      match renderRows rest with
      | Except.error e => Except.error e
      | Except.ok others => Except.ok (line :: others)

/-- `query_result = inner.get("query_result", {}) or {}` (jc-cli line 92). -/
def queryResultVal (inner : List (PyVal × PyVal)) : PyVal :=
  let q₀ := dGetD inner (PyVal.str "query_result") (PyVal.dict [])
  if truthy q₀ then q₀ else PyVal.dict []

/-- `results = query_result.get("results", []) or []` (jc-cli line 94):
raises when `query_result` is a truthy non-dict. -/
def resultsVal (inner : List (PyVal × PyVal)) : Except String PyVal :=
  match pyGet (queryResultVal inner) "results" (PyVal.list []) with
  | Except.error e => Except.error e
  | Except.ok r₀ => Except.ok (if truthy r₀ then r₀ else PyVal.list [])

/-- The lines appended before the results section (jc-cli lines 90-110):
explanation block (the explanation value itself is appended unconverted),
rationale line, query-time line, each only when its source value is truthy
(`is not None` for the query time). -/
def preambleLines (inner : List (PyVal × PyVal)) : Except String (List PyVal) :=
  let explanation := dGetD inner (PyVal.str "explanation") PyVal.none
  let rationale := dGetD inner (PyVal.str "rationale") PyVal.none
  match pyGet (queryResultVal inner) "metadata" (PyVal.dict []) with
  | Except.error e => Except.error e
  | Except.ok m₀ =>
  let metadata := if truthy m₀ then m₀ else PyVal.dict []
  match pyGet metadata "queryTime" PyVal.none with
  | Except.error e => Except.error e
  | Except.ok qt =>
  let l₁ : List PyVal :=
    if truthy explanation then [PyVal.str "Explanation:", explanation, PyVal.str ""]
    else []
  let l₂ : List PyVal :=
    if truthy rationale then [PyVal.str ("Why this query: " ++ pyStr rationale), PyVal.str ""]
    else []
  let l₃ : List PyVal :=
    match qt with
    | PyVal.none => []
    | v => [PyVal.str ("Query time: " ++ pyStr v), PyVal.str ""]
  Except.ok (l₁ ++ l₂ ++ l₃)

/-- The list of output lines of `_format_search_api_results`: preamble,
then either the no-results line or the capped rows with their header and
the overflow note. -/
def formatLines (inner : List (PyVal × PyVal)) : Except String (List PyVal) :=
  match preambleLines inner with
  | Except.error e => Except.error e
  | Except.ok pre =>
    match resultsVal inner with
    | Except.error e => Except.error e
    | Except.ok results =>
      if truthy results then
        match results with
        | PyVal.list rows =>
          match renderRows (rows.take 20) with
          | Except.error e => Except.error e
          | Except.ok rowLines =>
            Except.ok (pre
              ++ [PyVal.str ("Results (showing up to " ++ toString (Nat.min rows.length 20) ++ "):")]
              ++ rowLines
              ++ (if rows.length > 20
                  then [PyVal.str ("... plus " ++ toString (rows.length - 20) ++ " more")]
                  else []))
        | _ => Except.error "TypeError: results is not a list"
      else
        Except.ok (pre ++ [PyVal.str "No results found."])

/-- Python `sep.join(xs)` on a non-empty remainder: every element must be a
string, otherwise `TypeError`. -/
def pyJoinAux (sep acc : String) : List PyVal → Except String String
  | [] => Except.ok acc
  | PyVal.str s :: rest => pyJoinAux sep (acc ++ sep ++ s) rest
  | _ :: _ => Except.error "TypeError: join expects strings"

/-- Python `sep.join(xs)`. -/
def pyJoin (sep : String) : List PyVal → Except String String
  | [] => Except.ok ""
  | PyVal.str s :: rest => pyJoinAux sep s rest
  | _ :: _ => Except.error "TypeError: join expects strings"

/-- `_format_search_api_results` (jc-cli lines 89-155): the joined lines. -/
def formatSearchApiResults (inner : List (PyVal × PyVal)) : Except String String :=
  match formatLines inner with
  | Except.error e => Except.error e
  | Except.ok ls => pyJoin "\n" ls

deriving instance DecidableEq for Except

/-!  ## Slack formatter (bot/appv1.py lines 121-239)
Identical control flow to the jc-cli formatter; only the literal strings
differ, and every appended line is built by an f-string (so the final join
cannot raise). -/

/-- appv1 identity line (appv1.py lines 190-203). -/
def appv1IdentityLine (fm : List (PyVal × PyVal)) : Except String String :=
  let fname := dGetD fm (PyVal.str "user.first_name") (PyVal.str "")
  let lname := dGetD fm (PyVal.str "user.last_name") (PyVal.str "")
  let email := dGetD fm (PyVal.str "user.email") PyVal.none
  let username := dGetD fm (PyVal.str "user.username") PyVal.none
  let uid := dGetD fm (PyVal.str "user.id") PyVal.none
  match pyAdd fname (PyVal.str " ") with
  | Except.error e => Except.error e
  | Except.ok t₁ =>
    match pyAdd t₁ lname with
    | Except.error e => Except.error e
    | Except.ok t₂ =>
      match pyStrip t₂ with
      | Except.error e => Except.error e
      | Except.ok pretty =>
        let parts : List String :=
          (if truthy username then ["`" ++ pyStr username ++ "`"] else [])
            ++ (if pretty ≠ "" then [pretty] else [])
            ++ (if truthy email then ["<" ++ pyStr email ++ ">"] else [])
            ++ (if truthy uid then ["_id: `" ++ pyStr uid ++ "`_"] else [])
        Except.ok ("• " ++ String.intercalate " – " parts)

/-- appv1 generic line (appv1.py lines 205-210). -/
def appv1GenericLine (fm : List (PyVal × PyVal)) : String :=
  "• " ++ String.intercalate "; "
    (fm.map fun p => "*" ++ pyStr p.1 ++ "*: `" ++ pyStr p.2 ++ "`")

/-- appv1 row renderer (appv1.py lines 173-210). -/
def appv1RenderRow (row : PyVal) : Except String String :=
  match pyGet row "fields" (PyVal.list []) with
  | Except.error e => Except.error e
  | Except.ok fl₀ =>
    match (if truthy fl₀ then fl₀ else PyVal.list []) with
    | PyVal.list fs =>
      match buildFieldMap fs with
      | Except.error e => Except.error e
      | Except.ok fm =>
        let email := dGetD fm (PyVal.str "user.email") PyVal.none
        let username := dGetD fm (PyVal.str "user.username") PyVal.none
        let uid := dGetD fm (PyVal.str "user.id") PyVal.none
        if truthy username || truthy email || truthy uid then appv1IdentityLine fm
        else Except.ok (appv1GenericLine fm)
    | _ => Except.error "TypeError: fields is not a list of dicts"

/-- appv1 row loop over `results[:MAX_ROWS]`. -/
def appv1RenderRows : List PyVal → Except String (List String)
  | [] => Except.ok []
  | row :: rest =>
    match appv1RenderRow row with
    | Except.error e => Except.error e
    | Except.ok line =>
      match appv1RenderRows rest with
      | Except.error e => Except.error e
      | Except.ok others => Except.ok (line :: others)

/-- appv1 preamble lines (appv1.py lines 146-163): explanation, rationale
and query time are interpolated into f-strings. -/
def appv1PreambleLines (inner : List (PyVal × PyVal)) : Except String (List String) :=
  let explanation := dGetD inner (PyVal.str "explanation") PyVal.none
  let rationale := dGetD inner (PyVal.str "rationale") PyVal.none
  match pyGet (queryResultVal inner) "metadata" (PyVal.dict []) with
  | Except.error e => Except.error e
  | Except.ok m₀ =>
  let metadata := if truthy m₀ then m₀ else PyVal.dict []
  match pyGet metadata "queryTime" PyVal.none with
  | Except.error e => Except.error e
  | Except.ok qt =>
  let l₁ : List String :=
    if truthy explanation then ["*Explanation:*\n" ++ pyStr explanation ++ "\n"] else []
  let l₂ : List String :=
    if truthy rationale then ["*Why this query:* " ++ pyStr rationale ++ "\n"] else []
  let l₃ : List String :=
    match qt with
    | PyVal.none => []
    | v => ["_Query time_: `" ++ pyStr v ++ "`\n"]
  Except.ok (l₁ ++ l₂ ++ l₃)

/-- `_format_search_api_results` of bot/appv1.py (lines 121-216). -/
def appv1FormatResults (inner : List (PyVal × PyVal)) : Except String String :=
  match appv1PreambleLines inner with
  | Except.error e => Except.error e
  | Except.ok pre =>
    match resultsVal inner with
    | Except.error e => Except.error e
    | Except.ok results =>
      if truthy results then
        match results with
        | PyVal.list rows =>
          match appv1RenderRows (rows.take 20) with
          | Except.error e => Except.error e
          | Except.ok rowLines =>
            Except.ok (String.intercalate "\n" (pre
              ++ ["*Results* (showing up to " ++ toString (Nat.min rows.length 20) ++ "):"]
              ++ rowLines
              ++ (if rows.length > 20
                  then ["\n_… plus " ++ toString (rows.length - 20) ++ " more results_"]
                  else [])))
        | _ => Except.error "TypeError: results is not a list"
      else
        Except.ok (String.intercalate "\n" (pre ++ ["_No results found._"]))

/-- `format_search_api_slack_message` (appv1.py lines 219-239).  The raw
fallback serialization (`model_dump_json`/`str`) belongs to the external
result object, so it is the parameter `rawDump`; the builder truncates it
to its first 2700 characters inside the fallback message. -/
def formatSearchApiSlackMessage (parse : String → Except String PyVal)
    (userQuery : String) (r : RawResult) (rawDump : String) : Except String String :=
  match extract parse r with
  | Except.error e => Except.error e
  | Except.ok Option.none =>
    Except.ok ("*Query:* `" ++ userQuery ++ "`\n"
      ++ "Could not parse structured search_api result, showing raw data:\n"
      ++ "```json\n" ++ rawDump.take 2700 ++ "\n```")
  | Except.ok (Option.some inner) =>
    match appv1FormatResults inner with
    | Except.error e => Except.error e
    | Except.ok formatted =>
      Except.ok ("*Query:* `" ++ userQuery ++ "`\n\n" ++ formatted)

/-!  ## Tool invoker (appv1.py lines 50-69, jc-cli.py lines 31-45)
The transport session (streamable HTTP client, handshake, `call_tool`) is
the external MCP SDK; it is the parameter `callTool`, which either raises
(`Except.error`) or returns the raw envelope.  The repository's wrapper
issues exactly one call and returns its result unchanged. -/

/-- `_mcp_search_api`/`mcp_search_api_sync`: one `call_tool("search_api",
{"query": query})` round trip, result returned as-is. -/
def mcpSearchApiSync
    (callTool : String → List (String × PyVal) → Except String RawResult)
    (query : String) : Except String RawResult :=
  callTool "search_api" [("query", PyVal.str query)]

/-- The final message `handle_jc_command` (appv1.py lines 269-276) hands to
`respond` on the success path: the Slack-formatted message for the raw
envelope returned by the invoker, with no further processing. -/
def handleJcFinalMessage (parse : String → Except String PyVal)
    (callTool : String → List (String × PyVal) → Except String RawResult)
    (text : String) (rawDump : String) : Except String String :=
  match mcpSearchApiSync callTool text with
  | Except.error e => Except.error e
  | Except.ok r => formatSearchApiSlackMessage parse text r rawDump

/-!  ## Size bounder (bot/app.py lines 116-121)
Python strings are modelled as character lists here, because the property
is about lengths and slicing. -/

/-- The fixed suffix appended after the cut. -/
def truncationMarker : List Char := "\n... (truncated)".toList

/-- The truncation applied by app.py's `handle_jc_command`: `MAX_LEN`
comparison and slice plus marker.  The budget is a parameter; app.py
instantiates it with 2800. -/
def bound (text : List Char) (maxChars : Nat) : List Char :=
  if text.length > maxChars then text.take maxChars ++ truncationMarker else text

/-!  ## Concrete inputs used by the witnesses and counterexamples -/

/-- Test double standing in for `json.loads` on the concrete strings that
appear in witnesses: `"obj"` parses to a dict, `"arr"` to a non-dict, and
everything else raises. -/
def jsonLoadsStub : String → Except String PyVal := fun s =>
  if s = "obj" then Except.ok (PyVal.dict [(PyVal.str "a", PyVal.int 1)])
  else if s = "arr" then Except.ok (PyVal.list [PyVal.int 1])
  else Except.error "ValueError: no JSON"

/-- A row whose only field is a `user.email`. -/
def emailOnlyRow : PyVal :=
  PyVal.dict [(PyVal.str "fields", PyVal.list
    [PyVal.dict [(PyVal.str "field", PyVal.str "user.email"),
                 (PyVal.str "value", PyVal.str "a@x.com")]])]

/-- A row whose only field is a `user.email` whose value is the empty
string: the field map contains the key, but its value is falsy. -/
def emptyEmailRow : PyVal :=
  PyVal.dict [(PyVal.str "fields", PyVal.list
    [PyVal.dict [(PyVal.str "field", PyVal.str "user.email"),
                 (PyVal.str "value", PyVal.str "")]])]

/-- A row with no identity fields at all. -/
def plainRow : PyVal := PyVal.dict [(PyVal.str "fields", PyVal.list [])]

/-- A payload whose `results` list holds 21 plain rows. -/
def inner21 : List (PyVal × PyVal) :=
  [(PyVal.str "query_result",
    PyVal.dict [(PyVal.str "results", PyVal.list (List.replicate 21 plainRow))])]

/-- A row that qualifies for the identity renderer (it has a `user.email`)
but carries a non-string `user.first_name`. -/
def badNameRow : PyVal :=
  PyVal.dict [(PyVal.str "fields", PyVal.list
    [PyVal.dict [(PyVal.str "field", PyVal.str "user.email"),
                 (PyVal.str "value", PyVal.str "a@x.com")],
     PyVal.dict [(PyVal.str "field", PyVal.str "user.first_name"),
                 (PyVal.str "value", PyVal.int 5)]])]

/-- The payload exhibiting that formatting can raise. -/
def badNameInner : List (PyVal × PyVal) :=
  [(PyVal.str "query_result",
    PyVal.dict [(PyVal.str "results", PyVal.list [badNameRow])])]

/-- A fields list with a falsy-empty name, a `None` name, an absent name,
and a duplicated truthy name. -/
def fieldsWithFalsy : List PyVal :=
  [PyVal.dict [(PyVal.str "field", PyVal.str ""), (PyVal.str "value", PyVal.int 1)],
   PyVal.dict [(PyVal.str "field", PyVal.none), (PyVal.str "value", PyVal.int 2)],
   PyVal.dict [(PyVal.str "field", PyVal.str "a"), (PyVal.str "value", PyVal.int 3)],
   PyVal.dict [(PyVal.str "field", PyVal.str "a"), (PyVal.str "value", PyVal.int 4)],
   PyVal.dict [(PyVal.str "value", PyVal.int 5)]]

/-- An envelope whose remote-reported error flag is set. -/
def errorEnvelope : RawResult :=
  { structuredContent := PyVal.none
    content := some [⟨PyVal.str "tool failed"⟩]
    isError := true }

/-- A transport stub whose single tool call reports `isError = true` inside
a normally delivered envelope (as the MCP client does for tool-level
failures). -/
def callToolIsError : String → List (String × PyVal) → Except String RawResult :=
  fun _ _ => Except.ok errorEnvelope

/-- A 3000-character explanation string. -/
def longExplanation : String := String.mk (List.replicate 3000 'a')

/-- The payload carrying the 3000-character explanation. -/
def longInner : List (PyVal × PyVal) :=
  [(PyVal.str "explanation", PyVal.str longExplanation)]

/-- An envelope carrying a 3000-character explanation in its
`structuredContent`. -/
def longEnvelope : RawResult :=
  { structuredContent := PyVal.dict longInner
    content := none
    isError := false }

/-- A transport stub delivering `longEnvelope`. -/
def callToolLong : String → List (String × PyVal) → Except String RawResult :=
  fun _ _ => Except.ok longEnvelope

/-- The Slack body appv1's formatter produces for `longInner`: the
3000-character explanation passes through in full. -/
def longSlackBody : String :=
  String.intercalate "\n"
    ["*Explanation:*\n" ++ longExplanation ++ "\n", "_No results found._"]

/-- The full message appv1's handler delivers for `longEnvelope`. -/
def longSlackMessage : String :=
  "*Query:* `" ++ "q" ++ "`\n\n" ++ longSlackBody

/-!  ## Shared lemmas -/

/-- When `structuredContent` is not a dict, the extractor is exactly the
`content[].text` fallback. -/
theorem extract_not_dict (parse : String → Except String PyVal) (r : RawResult)
    (h : ∀ d₀, r.structuredContent ≠ PyVal.dict d₀) :
    extract parse r = contentFallback parse r.content := by
  unfold extract
  cases h' : r.structuredContent with
  | dict d => exact (h d h').elim
  | none => rfl
  | bool b => rfl
  | int n => rfl
  | str s => rfl
  | list xs => rfl

/-- The content scan skips any prefix of items that yield no object and
returns the first object found, never examining later items. -/
theorem scanContent_append_of_none (parse : String → Except String PyVal)
    (pre post : List ContentItem) (item : ContentItem) (d : List (PyVal × PyVal))
    (hpre : ∀ it ∈ pre, itemObj parse it = none)
    (hit : itemObj parse item = some d) :
    scanContent parse (pre ++ item :: post) = some d := by
  induction pre with
  | nil => simp [scanContent, hit]
  | cons p ps ih =>
    have hp := hpre p (by simp)
    simp only [List.cons_append, scanContent, hp]
    exact ih fun it hin => hpre it (by simp [hin])

/-!  ## Claims -/

/-- C1: for every RawResult with no `structuredContent` mapping whose
`content` sequence holds at least one item whose text parses to a JSON
object, `extract` returns the first such object in list order; items whose
text is absent, unparsable, or parses to a non-mapping are skipped without
aborting (they satisfy `itemObj parse it = none`), and no later item is
examined once one succeeds (the suffix `post` is arbitrary). -/
theorem extract_first_content_object (parse : String → Except String PyVal)
    (r : RawResult) (pre post : List ContentItem) (item : ContentItem)
    (d : List (PyVal × PyVal))
    (hsc : ∀ d₀, r.structuredContent ≠ PyVal.dict d₀)
    (hcontent : r.content = some (pre ++ item :: post))
    (hpre : ∀ it ∈ pre, itemObj parse it = none)
    (hit : itemObj parse item = some d) :
    extract parse r = Except.ok (some d) := by
  rw [extract_not_dict parse r hsc, hcontent]
  simp only [contentFallback]
  rw [if_neg (by simp)]
  rw [scanContent_append_of_none parse pre post item d hpre hit]

/-- Witness for C1: an unparsable item, a textless item and a non-object
item precede the first object; a later item is never reached. -/
theorem extract_first_content_object_witness :
    extract jsonLoadsStub
      { structuredContent := PyVal.none
        content := some [⟨PyVal.str "bad"⟩, ⟨PyVal.none⟩, ⟨PyVal.str "arr"⟩,
                         ⟨PyVal.str "obj"⟩, ⟨PyVal.str "zzz"⟩]
        isError := false }
      = Except.ok (some [(PyVal.str "a", PyVal.int 1)]) :=
  extract_first_content_object jsonLoadsStub _
    [⟨PyVal.str "bad"⟩, ⟨PyVal.none⟩, ⟨PyVal.str "arr"⟩] [⟨PyVal.str "zzz"⟩]
    ⟨PyVal.str "obj"⟩ _
    (fun _ h => PyVal.noConfusion h) rfl (by decide) (by decide)

/-- C2: a dict `structuredContent` is returned unchanged whatever the
`content` sequence holds (it is never read), and a `structuredContent`
that is present but not a mapping makes extraction fall through to the
`content[].text` strategy. -/
theorem extract_structured_priority :
    (∀ (parse : String → Except String PyVal) (d : List (PyVal × PyVal))
       (content : Option (List ContentItem)) (isErr : Bool),
       extract parse ⟨PyVal.dict d, content, isErr⟩ = Except.ok (some d))
    ∧ (∀ (parse : String → Except String PyVal) (sc : PyVal)
         (content : Option (List ContentItem)) (isErr : Bool),
         (∀ d, sc ≠ PyVal.dict d) →
         extract parse ⟨sc, content, isErr⟩ = contentFallback parse content) := by
  constructor
  · intro parse d content isErr
    rfl
  · intro parse sc content isErr h
    exact extract_not_dict parse ⟨sc, content, isErr⟩ h

/-- Witness for C2: a dict `structuredContent` wins over a parseable
content item, and a present non-mapping `structuredContent` (a list) falls
through to the content strategy. -/
theorem extract_structured_priority_witness :
    extract jsonLoadsStub
        ⟨PyVal.dict [(PyVal.str "k", PyVal.int 7)], some [⟨PyVal.str "obj"⟩], true⟩
      = Except.ok (some [(PyVal.str "k", PyVal.int 7)])
    ∧ extract jsonLoadsStub
        ⟨PyVal.list [PyVal.int 1], some [⟨PyVal.str "obj"⟩], false⟩
      = contentFallback jsonLoadsStub (some [⟨PyVal.str "obj"⟩]) :=
  ⟨extract_structured_priority.1 jsonLoadsStub _ _ true,
   extract_structured_priority.2 jsonLoadsStub _ _ false fun _ h => PyVal.noConfusion h⟩

/-- A successful row loop renders exactly its input rows, in order. -/
theorem renderRows_forall2 (rows ls : List PyVal)
    (h : renderRows rows = Except.ok ls) :
    List.Forall₂ (fun r s => renderRow r = Except.ok s) rows ls := by
  induction rows generalizing ls with
  | nil =>
    simp only [renderRows] at h
    cases h
    exact List.Forall₂.nil
  | cons row rest ih =>
    simp only [renderRows] at h
    cases h₁ : renderRow row with
    | error e => rw [h₁] at h; cases h
    | ok line =>
      rw [h₁] at h
      cases h₂ : renderRows rest with
      | error e => rw [h₂] at h; cases h
      | ok others =>
        rw [h₂] at h
        cases h
        exact List.Forall₂.cons h₁ (ih others h₂)

/-- C3: when the payload's results list renders successfully, the emitted
lines are the preamble, one header stating `min(n, 20)` as the count
shown, the renderings of the first 20 rows in received order, and — only
when `n > 20` — exactly one trailing note stating that `n - 20` rows were
omitted; when that note appears there are exactly 20 row lines. -/
theorem format_caps_rows_at_twenty (inner : List (PyVal × PyVal))
    (pre : List PyVal) (rows ls : List PyVal)
    (hpre : preambleLines inner = Except.ok pre)
    (hres : resultsVal inner = Except.ok (PyVal.list rows))
    (hne : rows ≠ [])
    (hrows : renderRows (rows.take 20) = Except.ok ls) :
    formatLines inner = Except.ok (pre
        ++ [PyVal.str ("Results (showing up to " ++ toString (Nat.min rows.length 20) ++ "):")]
        ++ ls
        ++ (if rows.length > 20
            then [PyVal.str ("... plus " ++ toString (rows.length - 20) ++ " more")]
            else []))
    ∧ List.Forall₂ (fun r s => renderRow r = Except.ok s) (rows.take 20) ls
    ∧ (rows.length > 20 → ls.length = 20) := by
  have htr : truthy (PyVal.list rows) = true := by
    simp [truthy, hne]
  refine ⟨?_, renderRows_forall2 _ _ hrows, ?_⟩
  · simp only [formatLines, hpre, hres, htr, if_true, hrows]
  · intro hgt
    have hlen := (renderRows_forall2 _ _ hrows).length_eq
    rw [← hlen, List.length_take]
    omega

/-- Witness for C3: a payload with 21 rows emits the header capped at 20,
exactly 20 row lines and the single note about 1 omitted row. -/
theorem format_caps_rows_at_twenty_witness :
    formatLines inner21 = Except.ok
      ([PyVal.str "Results (showing up to 20):"]
        ++ List.replicate 20 (PyVal.str " - ")
        ++ [PyVal.str "... plus 1 more"])
    ∧ (List.replicate 20 (PyVal.str " - ")).length = 20 := by
  have h := format_caps_rows_at_twenty inner21 [] (List.replicate 21 plainRow)
    (List.replicate 20 (PyVal.str " - ")) rfl rfl (by decide) rfl
  exact ⟨by simpa using h.1, h.2.2 (by decide)⟩

/-- C4 counterexample: the identity renderer triggers on truthy values,
not on key containment — a field map that contains the key `user.email`
with an empty-string value is rendered by the generic key=value renderer,
so presence of the `user.email` key alone does not qualify. -/
theorem generic_line_on_falsy_email :
    buildFieldMap [PyVal.dict [(PyVal.str "field", PyVal.str "user.email"),
                               (PyVal.str "value", PyVal.str "")]]
      = Except.ok [(PyVal.str "user.email", PyVal.str "")]
    ∧ renderRow emptyEmailRow
      = Except.ok (genericLine [(PyVal.str "user.email", PyVal.str "")])
    ∧ genericLine [(PyVal.str "user.email", PyVal.str "")]
      = PyVal.str " - user.email="
    ∧ renderRow emptyEmailRow
      ≠ identityLine [(PyVal.str "user.email", PyVal.str "")] := by
  exact ⟨rfl, by decide, rfl, by decide⟩

/-- C4 (amended): whenever the reduced field map gives a truthy value to
any of `user.username`, `user.email`, `user.id`, the row is rendered by
the identity-line renderer (username, trimmed first+last display name,
email, id, each included only if present, joined by the fixed separator in
that order) rather than the generic key=value renderer; a key that is
present with a falsy value (empty string or `None`) does not qualify, and
a truthy `user.email` alone does. -/
theorem identity_line_trigger (row fl₀ : PyVal) (fs : List PyVal)
    (fm : List (PyVal × PyVal))
    (hfl : pyGet row "fields" (PyVal.list []) = Except.ok fl₀)
    (hlist : (if truthy fl₀ then fl₀ else PyVal.list []) = PyVal.list fs)
    (hfm : buildFieldMap fs = Except.ok fm)
    (htrig : (truthy (dGetD fm (PyVal.str "user.username") PyVal.none)
      || truthy (dGetD fm (PyVal.str "user.email") PyVal.none)
      || truthy (dGetD fm (PyVal.str "user.id") PyVal.none)) = true) :
    renderRow row = identityLine fm := by
  simp only [renderRow, hfl, hlist, hfm, htrig, if_true]

/-- Witness for C4: presence of `user.email` alone selects the identity
renderer, which here emits only the email part. -/
theorem identity_line_trigger_witness :
    renderRow emailOnlyRow
      = identityLine [(PyVal.str "user.email", PyVal.str "a@x.com")]
    ∧ identityLine [(PyVal.str "user.email", PyVal.str "a@x.com")]
      = Except.ok (PyVal.str " - <a@x.com>") :=
  ⟨identity_line_trigger emailOnlyRow _ _ _ rfl rfl rfl (by decide), by decide⟩

/-- C10: there is an extracted payload on which formatting raises: a row
that qualifies for the identity renderer through its `user.email` but
whose `user.first_name` is a number makes the display-name concatenation
raise `TypeError`, so formatting is not total over arbitrary field value
types. -/
theorem format_raises_on_nonstring_name :
    formatSearchApiResults badNameInner
      = Except.error "TypeError: unsupported operand types for +" := by
  decide

/-- Updating a key and looking it up yields the new value. -/
theorem dGetD_fmSet_self (m : List (PyVal × PyVal)) (k v dflt : PyVal) :
    dGetD (fmSet m k v) k dflt = v := by
  induction m with
  | nil => simp [fmSet, dGetD]
  | cons p rest ih =>
    by_cases h : p.1 = k
    · simp [fmSet, h, dGetD]
    · simp [fmSet, h, dGetD, ih]

/-- Updating one key leaves lookups of other keys unchanged. -/
theorem dGetD_fmSet_other (m : List (PyVal × PyVal)) (k k' v dflt : PyVal)
    (h : k ≠ k') : dGetD (fmSet m k v) k' dflt = dGetD m k' dflt := by
  induction m with
  | nil => simp [fmSet, dGetD, h]
  | cons p rest ih =>
    by_cases hp : p.1 = k
    · simp [fmSet, hp, dGetD, h]
    · simp [fmSet, hp, dGetD, ih]

/-- Every entry of an updated map comes from the old map or carries the
updated key. -/
theorem fmSet_keys (m : List (PyVal × PyVal)) (k v : PyVal)
    (p : PyVal × PyVal) (hp : p ∈ fmSet m k v) : p ∈ m ∨ p.1 = k := by
  induction m with
  | nil =>
    simp [fmSet] at hp
    right
    rw [hp]
  | cons q rest ih =>
    by_cases h : q.1 = k
    · simp [fmSet, h] at hp
      rcases hp with hp | hp
      · right; rw [hp]
      · left; exact List.mem_cons_of_mem q hp
    · simp only [fmSet, h, if_false, List.mem_cons] at hp
      rcases hp with hp | hp
      · left; rw [hp]; exact List.mem_cons_self q rest
      · rcases ih hp with hin | hk
        · left; exact List.mem_cons_of_mem q hin
        · right; exact hk

/-- The field-map loop only ever inserts truthy names. -/
theorem buildFieldMapAux_truthy_keys (fs : List PyVal) :
    ∀ (acc fm : List (PyVal × PyVal)), (∀ p ∈ acc, truthy p.1 = true) →
      buildFieldMapAux acc fs = Except.ok fm →
      ∀ p ∈ fm, truthy p.1 = true := by
  induction fs with
  | nil =>
    intro acc fm hacc h
    simp only [buildFieldMapAux] at h
    cases h
    exact hacc
  | cons f rest ih =>
    intro acc fm hacc h
    simp only [buildFieldMapAux] at h
    cases h₁ : pyGet f "field" PyVal.none with
    | error e => rw [h₁] at h; cases h
    | ok fname =>
      rw [h₁] at h
      try dsimp only at h
      cases h₂ : pyGet f "value" PyVal.none with
      | error e => rw [h₂] at h; cases h
      | ok fval =>
        rw [h₂] at h
        try dsimp only at h
        by_cases ht : truthy fname = true
        · rw [if_pos ht] at h
          refine ih _ fm ?_ h
          intro p hp
          rcases fmSet_keys acc fname fval p hp with hin | hk
          · exact hacc p hin
          · rw [hk]; exact ht
        · rw [if_neg ht] at h
          exact ih _ fm hacc h

/-- Lookup in the built field map agrees with the last matching `fields`
entry (a left fold over the entries, each a dict with a `field` name and a
`value`). -/
theorem buildFieldMapAux_lookup (fs : List PyVal) :
    ∀ (acc fm : List (PyVal × PyVal)) (k : PyVal), truthy k = true →
      buildFieldMapAux acc fs = Except.ok fm →
      dGetD fm k PyVal.none =
        fs.foldl (lastFieldStep k) (dGetD acc k PyVal.none) := by
  induction fs with
  | nil =>
    intro acc fm k _ h
    simp only [buildFieldMapAux] at h
    cases h
    simp
  | cons f rest ih =>
    intro acc fm k hk h
    simp only [buildFieldMapAux] at h
    cases f with
    | dict d =>
      simp only [pyGet] at h
      try dsimp only at h
      rw [List.foldl_cons]
      by_cases hfk : dGetD d (PyVal.str "field") PyVal.none = k
      · have ht : truthy (dGetD d (PyVal.str "field") PyVal.none) = true := by
          rw [hfk]; exact hk
        rw [if_pos ht] at h
        have hrec := ih _ fm k hk h
        rw [hrec, hfk, dGetD_fmSet_self]
        simp [lastFieldStep, hfk]
      · have hstep : lastFieldStep k (dGetD acc k PyVal.none) (PyVal.dict d)
            = dGetD acc k PyVal.none := by
          simp [lastFieldStep, hfk]
        rw [hstep]
        by_cases ht : truthy (dGetD d (PyVal.str "field") PyVal.none) = true
        · rw [if_pos ht] at h
          have hrec := ih _ fm k hk h
          rw [hrec, dGetD_fmSet_other _ _ _ _ _ hfk]
        · rw [if_neg ht] at h
          exact ih _ fm k hk h
    | none => simp [pyGet] at h
    | bool b => simp [pyGet] at h
    | int n => simp [pyGet] at h
    | str s => simp [pyGet] at h
    | list xs => simp [pyGet] at h

/-- C9: reducing a row's fields list drops every entry whose field name is
absent, `None`, or empty (falsy) — no such name ever appears in the field
map, hence in neither rendered line — while entries with a truthy name are
kept, the last occurrence winning on duplicates (lookup equals the last
matching entry of the fields list). -/
theorem field_map_drops_falsy_names (fs : List PyVal)
    (fm : List (PyVal × PyVal)) (h : buildFieldMap fs = Except.ok fm) :
    (∀ p ∈ fm, truthy p.1 = true)
    ∧ ∀ k : PyVal, truthy k = true →
        dGetD fm k PyVal.none = fs.foldl (lastFieldStep k) PyVal.none := by
  constructor
  · exact buildFieldMapAux_truthy_keys fs [] fm (by simp) h
  · intro k hk
    have hrec := buildFieldMapAux_lookup fs [] fm k hk h
    simpa [dGetD] using hrec

/-- Witness for C9: of five field entries (empty name, `None` name, two
entries named `a`, an entry with no name) only the last `a` entry
survives. -/
theorem field_map_drops_falsy_names_witness :
    buildFieldMap fieldsWithFalsy = Except.ok [(PyVal.str "a", PyVal.int 4)]
    ∧ dGetD [(PyVal.str "a", PyVal.int 4)] (PyVal.str "a") PyVal.none = PyVal.int 4 := by
  have h := field_map_drops_falsy_names fieldsWithFalsy
    [(PyVal.str "a", PyVal.int 4)] rfl
  refine ⟨rfl, ?_⟩
  have h₂ := h.2 (PyVal.str "a") (by decide)
  exact h₂.trans (by decide)

/-- C5: the size bounder returns short texts unchanged, and texts beyond
the budget become exactly the first `maxChars` characters followed by the
fixed truncation marker, so the output exceeds the budget by exactly the
marker's length. -/
theorem bound_truncates (text : List Char) (maxChars : Nat) :
    (text.length ≤ maxChars → bound text maxChars = text)
    ∧ (maxChars < text.length →
        bound text maxChars = text.take maxChars ++ truncationMarker
        ∧ (bound text maxChars).length = maxChars + truncationMarker.length) := by
  constructor
  · intro h
    simp only [bound]
    rw [if_neg (by omega)]
  · intro h
    have hgt : text.length > maxChars := h
    constructor
    · simp only [bound]
      rw [if_pos hgt]
    · simp only [bound]
      rw [if_pos hgt]
      simp [List.length_take]
      omega

/-- Witness for C5: an 11-character input with budget 10 yields the first
10 characters plus the marker; a 10-character input is returned
unchanged. -/
theorem bound_truncates_witness :
    bound "abcdefghijk".toList 10 = "abcdefghij".toList ++ truncationMarker
    ∧ bound "abcdefghij".toList 10 = "abcdefghij".toList := by
  constructor
  · have h := (bound_truncates "abcdefghijk".toList 10).2 (by decide)
    exact h.1.trans (by decide)
  · exact (bound_truncates "abcdefghij".toList 10).1 (by decide)

/-- C6 counterexample: the invoker performs no `isError` check — a tool
call whose envelope carries `isError = true` is returned for normal
extraction and formatting (here it reaches the raw-dump fallback message)
instead of raising. -/
theorem invoker_returns_isError_envelope :
    mcpSearchApiSync callToolIsError "q" = Except.ok errorEnvelope
    ∧ errorEnvelope.isError = true
    ∧ formatSearchApiSlackMessage jsonLoadsStub "q" errorEnvelope "RAW"
      = Except.ok ("*Query:* `" ++ "q" ++ "`\n"
          ++ "Could not parse structured search_api result, showing raw data:\n"
          ++ "```json\n" ++ ("RAW" : String).take 2700 ++ "\n```") := by
  refine ⟨rfl, rfl, ?_⟩
  have hx : extract jsonLoadsStub errorEnvelope = Except.ok none := by decide
  simp only [formatSearchApiSlackMessage, hx]

/-- C6 (amended): the invoker returns the single tool call's result
unchanged — envelopes with `isError = true` included, which then flow into
extraction and formatting like any other result — and signals an error
only when the transport call itself raises. -/
theorem invoker_passes_envelope_through
    (callTool : String → List (String × PyVal) → Except String RawResult)
    (q : String) :
    mcpSearchApiSync callTool q = callTool "search_api" [("query", PyVal.str q)] :=
  rfl

/-- C7 counterexample: appv1's chat handler delivers a 3050-character
message — beyond the 2800-character budget plus the 16-character marker —
with no truncation applied anywhere on the formatted path. -/
theorem chat_message_exceeds_budget :
    handleJcFinalMessage jsonLoadsStub callToolLong "q" "" = Except.ok longSlackMessage
    ∧ 2800 + truncationMarker.length < longSlackMessage.length := by
  constructor
  · rfl
  · have h₁ : longSlackBody
        = ("*Explanation:*\n" ++ longExplanation ++ "\n") ++ "\n"
          ++ "_No results found._" := rfl
    have h₂ : longExplanation.length = 3000 := by
      have hmk : longExplanation.length = (List.replicate 3000 'a').length := rfl
      rw [hmk, List.length_replicate]
    simp only [longSlackMessage, h₁, String.length_append, h₂]
    decide

/-- C7 (amended): the appv1 chat handler delivers the formatter's output
with only the fixed query header prepended — no truncation is applied
after formatting, so no character budget bounds the delivered message; the
only truncation on the chat path is the raw-dump fallback's first-2700
-character cut inside the message builder itself. -/
theorem chat_delivery_applies_no_bound
    (parse : String → Except String PyVal)
    (callTool : String → List (String × PyVal) → Except String RawResult)
    (q rawDump : String) (r : RawResult) (inner : List (PyVal × PyVal))
    (formatted : String)
    (hc : callTool "search_api" [("query", PyVal.str q)] = Except.ok r)
    (hx : extract parse r = Except.ok (some inner))
    (hf : appv1FormatResults inner = Except.ok formatted) :
    handleJcFinalMessage parse callTool q rawDump
      = Except.ok ("*Query:* `" ++ q ++ "`\n\n" ++ formatted) := by
  simp only [handleJcFinalMessage, mcpSearchApiSync, hc,
    formatSearchApiSlackMessage, hx, hf]

/-- Witness for C7's amended theorem: the 3000-character explanation is
delivered in full. -/
theorem chat_delivery_applies_no_bound_witness :
    handleJcFinalMessage jsonLoadsStub callToolLong "q" ""
      = Except.ok ("*Query:* `" ++ "q" ++ "`\n\n" ++ longSlackBody) :=
  chat_delivery_applies_no_bound jsonLoadsStub callToolLong "q" ""
    longEnvelope longInner longSlackBody rfl rfl rfl

/-- C8: extraction terminates normally on every RawResult, however
malformed (any `structuredContent` value, absent or empty or arbitrary
content items, any `json.loads` behaviour), and yields either a mapping or
the explicit none signal — it never raises (`Except.error` is
unreachable). -/
theorem extract_never_raises (parse : String → Except String PyVal) (r : RawResult) :
    ∃ o : Option (List (PyVal × PyVal)), extract parse r = Except.ok o := by
  have hfb : ∃ o, contentFallback parse r.content = Except.ok o := by
    cases r.content with
    | none => exact ⟨none, rfl⟩
    | some items =>
      simp only [contentFallback]
      by_cases h : items.isEmpty
      · exact ⟨none, by rw [if_pos h]⟩
      · exact ⟨scanContent parse items, by rw [if_neg h]⟩
  unfold extract
  cases r.structuredContent with
  | dict d => exact ⟨some d, rfl⟩
  | none => exact hfb
  | bool b => exact hfb
  | int n => exact hfb
  | str s => exact hfb
  | list xs => exact hfb
